import Mathlib

/-!
Verification of the trading-bot core of this repository, shallowly embedded
in Lean 4.  Python floats are modelled as rationals (`ℚ`), Python dicts over
string keys as association lists, and `collections.deque(maxlen = n)` as a
list whose append evicts the oldest entries beyond `n`.  Async methods that
only talk to the exchange are modelled by passing the exchange's responses
in as parameters and returning the outbound requests explicitly.
-/

/-- Lookup with default, mirroring Python `dict.get(key, default)` for
string-keyed dicts of floats. -/
def dictGet (d : List (String × ℚ)) (key : String) (default : ℚ) : ℚ :=
  match d.find? (fun kv => kv.1 == key) with
  | some kv => kv.2
  | none => default

/-- Append on a `deque(maxlen := maxlen)`: entries beyond the capacity are
evicted from the front (oldest first). -/
def dequeAppend {α : Type} (maxlen : ℕ) (xs : List α) (x : α) : List α :=
  let ys := xs ++ [x]
  if ys.length ≤ maxlen then ys else ys.drop (ys.length - maxlen)

/-! ## app/analysis/order_flow.py -/

/-- `OrderFlowSnapshot` dataclass. -/
structure OrderFlowSnapshot where
  buy_volume : ℚ
  sell_volume : ℚ
  delta : ℚ
  imbalance : ℚ
  liquidation_pressure : ℚ
deriving Repr, DecidableEq

/-- `OrderFlowAnalyzer` state: two rolling windows.  A trade entry is
`(price, quantity, is_buy_aggressor)`, a liquidation entry is
`(quantity, is_long_liq)`; newest entries are at the back. -/
structure OrderFlowAnalyzer where
  maxlen : ℕ
  trades : List (ℚ × ℚ × Bool)
  liquidations : List (ℚ × Bool)
deriving Repr, DecidableEq

/-- `OrderFlowAnalyzer.__init__(maxlen = 120)`. -/
def OrderFlowAnalyzer.init (maxlen : ℕ) : OrderFlowAnalyzer :=
  ⟨maxlen, [], []⟩

/-- State change of `update_from_trade` (aggressor side = NOT is_buyer_maker). -/
def OrderFlowAnalyzer.update_from_trade (a : OrderFlowAnalyzer)
    (price quantity : ℚ) (is_buyer_maker : Bool) : OrderFlowAnalyzer :=
  { a with trades := dequeAppend a.maxlen a.trades (price, quantity, !is_buyer_maker) }

/-- State change of `update_from_liquidation` (side "BUY" marks a long liquidation). -/
def OrderFlowAnalyzer.update_from_liquidation (a : OrderFlowAnalyzer)
    (quantity : ℚ) (side : String) : OrderFlowAnalyzer :=
  { a with liquidations := dequeAppend a.maxlen a.liquidations (quantity, side.toUpper == "BUY") }

/-- `OrderFlowAnalyzer.snapshot`. -/
def OrderFlowAnalyzer.snapshot (a : OrderFlowAnalyzer) : OrderFlowSnapshot :=
  let buy_volume := ((a.trades.filter (fun t => t.2.2)).map (fun t => t.2.1)).sum
  let sell_volume := ((a.trades.filter (fun t => !t.2.2)).map (fun t => t.2.1)).sum
  let delta := buy_volume - sell_volume
  let total := buy_volume + sell_volume
  let imbalance := if total = 0 then 0 else delta / total
  let long_liq := ((a.liquidations.filter (fun l => l.2)).map (fun l => l.1)).sum
  let short_liq := ((a.liquidations.filter (fun l => !l.2)).map (fun l => l.1)).sum
  let liquidation_total := long_liq + short_liq
  let liquidation_pressure := if liquidation_total = 0 then 0 else (short_liq - long_liq) / liquidation_total
  { buy_volume := buy_volume
    sell_volume := sell_volume
    delta := delta
    imbalance := imbalance
    liquidation_pressure := liquidation_pressure }

/-- One inbound event for the analyzer, as seen by its two update methods. -/
inductive FlowUpdate where
  | trade (price quantity : ℚ) (is_buyer_maker : Bool)
  | liquidation (quantity : ℚ) (side : String)
deriving Repr, DecidableEq

/-- The quantity carried by an update. -/
def FlowUpdate.quantity : FlowUpdate → ℚ
  | .trade _ q _ => q
  | .liquidation q _ => q

/-- Whether an update is a trade update. -/
def FlowUpdate.isTrade : FlowUpdate → Bool
  | .trade _ _ _ => true
  | .liquidation _ _ => false

/-- Apply one update to the analyzer state. -/
def OrderFlowAnalyzer.apply (a : OrderFlowAnalyzer) : FlowUpdate → OrderFlowAnalyzer
  | .trade p q m => a.update_from_trade p q m
  | .liquidation q s => a.update_from_liquidation q s

/-- Run a sequence of updates from a fresh analyzer. -/
def OrderFlowAnalyzer.run (maxlen : ℕ) (us : List FlowUpdate) : OrderFlowAnalyzer :=
  us.foldl OrderFlowAnalyzer.apply (OrderFlowAnalyzer.init maxlen)

/-! ## app/strategies/technicals.py and app/analysis/volatility.py snapshots -/

/-- `TechnicalSnapshot` dataclass (fields only; the indicator computations
are delegated numeric utilities out of the claims' scope). -/
structure TechnicalSnapshot where
  trend_score : ℚ
  momentum_score : ℚ
  structure_bias : ℚ
  signal : String
deriving Repr, DecidableEq

/-- `VolatilitySnapshot` dataclass. -/
structure VolatilitySnapshot where
  atr : ℚ
  atr_pct : ℚ
  realized_vol : ℚ
  structure_break : Bool
  volatility_regime : String
deriving Repr, DecidableEq

/-! ## app/signals/signal_engine.py -/

/-- `SignalDecision` dataclass. -/
structure SignalDecision where
  symbol : String
  direction : String
  confidence : ℚ
  reasons : List String
deriving Repr, DecidableEq

/-- `SignalEngine` holds only its weight dict. -/
structure SignalEngine where
  _weights : List (String × ℚ)
deriving Repr, DecidableEq

/-- `SignalEngine.evaluate`, translated line by line. -/
def SignalEngine.evaluate (e : SignalEngine) (symbol : String)
    (technical : TechnicalSnapshot) (order_flow : OrderFlowSnapshot)
    (volatility : VolatilitySnapshot) : SignalDecision :=
  let trend_weight := dictGet e._weights "trend_score_weight" (2/5)
  let momentum_weight := dictGet e._weights "momentum_score_weight" (1/4)
  let of_weight := dictGet e._weights "orderflow_score_weight" (1/5)
  let liq_weight := dictGet e._weights "liquidity_score_weight" (3/20)
  let trend_component := technical.trend_score * trend_weight
  let momentum_component := technical.momentum_score * momentum_weight
  let flow_component := order_flow.imbalance * of_weight
  let liquidation_component :=
    (-order_flow.liquidation_pressure) * (liq_weight / 2)
      + (if volatility.structure_break then 1/2 else 0)
  let reasons0 : List String :=
    if volatility.structure_break then ["Structure break detectada"] else []
  let composite := trend_component + momentum_component + flow_component + liquidation_component
  let reasons1 := reasons0 ++
    [if technical.signal == "long" then "Momentum e tendência favorecem compra"
     else if technical.signal == "short" then "Momentum e tendência favorecem venda"
     else "Sinal técnico neutro"]
  let reasons2 := reasons1 ++
    [if order_flow.imbalance > 3/20 then "Fluxo comprador agressivo"
     else if order_flow.imbalance < -(3/20) then "Fluxo vendedor agressivo"
     else "Order flow neutro"]
  let reasons3 := reasons2 ++
    (if |volatility.atr_pct| > 3 then ["Alta volatilidade relativa"] else [])
  let direction :=
    if composite > 1/4 then "long"
    else if composite < -(1/4) then "short"
    else "flat"
  let confidence := min 1 (max 0 |composite|)
  { symbol := symbol, direction := direction, confidence := confidence, reasons := reasons3 }

/-! ## app/risk/risk_manager.py -/

/-- `PositionSizing` dataclass. -/
structure PositionSizing where
  quantity : ℚ
  leverage : ℤ
  notional : ℚ
  cost : ℚ
  stop_loss : ℚ
  take_profit : ℚ
  trailing_active : Bool
deriving Repr, DecidableEq

/-- `RiskManager` state after `__init__` (fields as stored). -/
structure RiskManager where
  _balance : ℚ
  _leverage : ℤ
  _risk_perc : ℚ
  _config : List (String × ℚ)
  _fixed_cost : ℚ
deriving Repr, DecidableEq

/-- `RiskManager.__init__`: normalizes `risk_perc` to a fraction when given
as a percentage and clamps `fixed_cost` at zero.  The `trailing_stop` config
entry is a truthy float (nonzero means enabled). -/
def RiskManager.init (quote_balance : ℚ) (leverage : ℤ) (risk_perc : ℚ)
    (config : List (String × ℚ)) (fixed_cost : ℚ) : RiskManager :=
  { _balance := quote_balance
    _leverage := leverage
    _risk_perc := if risk_perc > 1 then risk_perc / 100 else risk_perc
    _config := config
    _fixed_cost := max fixed_cost 0 }

/-- `RiskManager._position_risk`. -/
def RiskManager._position_risk (r : RiskManager) : ℚ :=
  r._balance * r._risk_perc

/-- `RiskManager._empty_sizing`. -/
def RiskManager._empty_sizing (r : RiskManager) : PositionSizing :=
  { quantity := 0, leverage := r._leverage, notional := 0, cost := 0
    stop_loss := 0, take_profit := 0, trailing_active := false }

/-- `RiskManager.size_position`, translated line by line.  Python's guarded
divisions (`x / y if y else 0`) become explicit zero tests. -/
def RiskManager.size_position (r : RiskManager) (price : ℚ)
    (volatility : VolatilitySnapshot) (direction : String) : PositionSizing :=
  if direction ≠ "long" ∧ direction ≠ "short" then r._empty_sizing
  else
    let atr := volatility.atr
    let atr_multiplier_sl := dictGet r._config "atr_multiplier_sl" (5/2)
    let atr_multiplier_tp := dictGet r._config "atr_multiplier_tp" 4
    let trailing := dictGet r._config "trailing_stop" 1
    let trailing_mult := dictGet r._config "trailing_atr_multiplier" (3/2)
    if price ≤ 0 then r._empty_sizing
    else
      let stop_distance := atr * atr_multiplier_sl
      if stop_distance ≤ 0 then r._empty_sizing
      else
        let qnc : ℚ × ℚ × ℚ :=
          if r._fixed_cost > 0 then
            let cost := r._fixed_cost
            let notional := cost * (r._leverage : ℚ)
            let quantity := if price ≠ 0 then notional / price else 0
            (quantity, notional, cost)
          else
            let risk_amount := r._position_risk
            let quantity := (risk_amount * (r._leverage : ℚ)) / stop_distance
            let notional := quantity * price
            let cost := if (r._leverage : ℚ) ≠ 0 then notional / (r._leverage : ℚ) else 0
            (quantity, notional, cost)
        let quantity := max qnc.1 0
        let notional := max qnc.2.1 0
        let cost := max qnc.2.2 0
        if quantity = 0 ∨ notional = 0 then r._empty_sizing
        else
          let stop_loss := if direction = "long" then price - stop_distance else price + stop_distance
          let take_profit :=
            if direction = "long" then price + atr * atr_multiplier_tp
            else price - atr * atr_multiplier_tp
          { quantity := quantity, leverage := r._leverage, notional := notional, cost := cost
            stop_loss := stop_loss, take_profit := take_profit
            trailing_active := decide (trailing ≠ 0) && decide (trailing_mult > 0) }

/-! ## app/portfolio/manager.py -/

/-- `Position` dataclass. -/
structure Position where
  symbol : String
  direction : String
  entry_price : ℚ
  quantity : ℚ
  stop_loss : ℚ
  take_profit : ℚ
  trailing_active : Bool := false
  notional : ℚ := 0
  cost : ℚ := 0
deriving Repr, DecidableEq

/-- Python-dict insert for a string-keyed dict: replace in place when the
key is present, append otherwise (insertion order preserved). -/
def dictInsert {α : Type} (d : List (String × α)) (k : String) (v : α) : List (String × α) :=
  if d.any (fun kv => kv.1 == k) then
    d.map (fun kv => if kv.1 == k then (k, v) else kv)
  else d ++ [(k, v)]

/-- `PortfolioState` dataclass: the positions dict. -/
structure PortfolioState where
  positions : List (String × Position)
deriving Repr, DecidableEq

/-- `PortfolioManager` state. -/
structure PortfolioManager where
  _state : PortfolioState
  _max_positions : ℕ
deriving Repr, DecidableEq

/-- `PortfolioManager.__init__(max_positions = 1)`. -/
def PortfolioManager.init (max_positions : ℕ) : PortfolioManager :=
  { _state := ⟨[]⟩, _max_positions := max_positions }

/-- `PortfolioManager.can_open`. -/
def PortfolioManager.can_open (m : PortfolioManager) (symbol : String) : Bool :=
  if m._state.positions.any (fun kv => kv.1 == symbol) then false
  else decide (m._state.positions.length < m._max_positions)

/-- `PortfolioManager.add_position`. -/
def PortfolioManager.add_position (m : PortfolioManager) (position : Position) : PortfolioManager :=
  { m with _state := ⟨dictInsert m._state.positions position.symbol position⟩ }

/-- `PortfolioManager.get_position`. -/
def PortfolioManager.get_position (m : PortfolioManager) (symbol : String) : Option Position :=
  (m._state.positions.find? (fun kv => kv.1 == symbol)).map Prod.snd

/-- `PortfolioManager.remove_position`: deletes the entry when present, else
does nothing (the membership test guards the `del`). -/
def PortfolioManager.remove_position (m : PortfolioManager) (symbol : String) : PortfolioManager :=
  if m._state.positions.any (fun kv => kv.1 == symbol) then
    { m with _state := ⟨m._state.positions.filter (fun kv => kv.1 != symbol)⟩ }
  else m

/-- `PortfolioManager.update_stop`: mutates the stored position's stop loss
when the symbol is present, else does nothing. -/
def PortfolioManager.update_stop (m : PortfolioManager) (symbol : String) (new_stop : ℚ) : PortfolioManager :=
  match m.get_position symbol with
  | some _ =>
      { m with _state := ⟨m._state.positions.map
          (fun kv => if kv.1 == symbol then (kv.1, { kv.2 with stop_loss := new_stop }) else kv)⟩ }
  | none => m

/-- `PortfolioManager.update_take_profit`: as `update_stop`, for take profit. -/
def PortfolioManager.update_take_profit (m : PortfolioManager) (symbol : String) (new_tp : ℚ) : PortfolioManager :=
  match m.get_position symbol with
  | some _ =>
      { m with _state := ⟨m._state.positions.map
          (fun kv => if kv.1 == symbol then (kv.1, { kv.2 with take_profit := new_tp }) else kv)⟩ }
  | none => m

/-! ## app/exchange/binance_client.py : OrderRequest -/

/-- `OrderRequest` dataclass. -/
structure OrderRequest where
  symbol : String
  side : String
  quantity : ℚ
  order_type : String := "MARKET"
  price : Option ℚ := none
  stop_price : Option ℚ := none
  reduce_only : Bool := false
  position_side : Option String := none
  time_in_force : Option String := none
deriving Repr, DecidableEq

/-! ## app/execution/trade_engine.py

The Binance client is a collaborator: the engine only asks it for the dual
position mode (a boolean response `envDual` passed in as a parameter) and
sends it leverage changes and orders.  Those outbound calls are returned
explicitly in `EngineEffects`. -/

/-- `ExecutionReport` dataclass. -/
structure ExecutionReport where
  opened : Bool := false
  closed : Bool := false
  adjusted : Bool := false
  message : String := ""
deriving Repr, DecidableEq

/-- Mutable `TradeEngine` fields (the client handle itself carries no state
the engine reads beyond the dual-mode answer). -/
structure TradeEngine where
  _portfolio : PortfolioManager
  _risk : RiskManager
  _symbol : String
  _leverage_synced : Bool
  _dual_side_position : Option Bool
deriving Repr, DecidableEq

/-- The outbound exchange calls made during one `process_signal` cycle:
leverage syncs and placed orders, in order. -/
structure EngineEffects where
  leverage_calls : List (String × ℤ) := []
  orders : List OrderRequest := []
deriving Repr, DecidableEq

/-- `TradeEngine._ensure_leverage`: on first need, sends one
`change_leverage(symbol, leverage)` call and latches the guard flag. -/
def TradeEngine._ensure_leverage (e : TradeEngine) : TradeEngine × List (String × ℤ) :=
  if e._leverage_synced then (e, [])
  else ({ e with _leverage_synced := true }, [(e._symbol, e._risk._leverage)])

/-- `TradeEngine._is_dual_position_mode`: queries the client once and caches
the answer. -/
def TradeEngine._is_dual_position_mode (envDual : Bool) (e : TradeEngine) : TradeEngine × Bool :=
  match e._dual_side_position with
  | some b => (e, b)
  | none => ({ e with _dual_side_position := some envDual }, envDual)

/-- `TradeEngine._position_side_for`. -/
def TradeEngine._position_side_for (envDual : Bool) (e : TradeEngine) (direction : String) :
    TradeEngine × Option String :=
  if direction ≠ "long" ∧ direction ≠ "short" then (e, none)
  else
    let ed := e._is_dual_position_mode envDual
    if !ed.2 then (ed.1, none)
    else (ed.1, some (if direction = "long" then "LONG" else "SHORT"))

/-- `TradeEngine._close_position`: builds the market order that closes
`position` (opposing side, full quantity, reduce-only in one-way mode). -/
def TradeEngine._close_position (envDual : Bool) (e : TradeEngine) (position : Position) :
    TradeEngine × OrderRequest :=
  let side := if position.direction = "long" then "SELL" else "BUY"
  let eps := e._position_side_for envDual position.direction
  (eps.1,
   { symbol := eps.1._symbol, side := side, quantity := position.quantity
     reduce_only := eps.2.isNone, position_side := eps.2 })

/-- `TradeEngine._open_position` followed by `_place_protection_orders`:
the entry order, then stop-loss and take-profit orders.  Without exchange
filter adjustments the confirmed stop prices equal the requested ones. -/
def TradeEngine._open_position (envDual : Bool) (e : TradeEngine) (direction : String)
    (sizing : PositionSizing) : TradeEngine × List OrderRequest × PositionSizing :=
  let side := if direction = "long" then "BUY" else "SELL"
  let eps := e._position_side_for envDual direction
  let order : OrderRequest :=
    { symbol := eps.1._symbol, side := side, quantity := sizing.quantity, position_side := eps.2 }
  let stop_side := if direction = "long" then "SELL" else "BUY"
  let tp_side := if direction = "long" then "SELL" else "BUY"
  let eps2 := eps.1._position_side_for envDual direction
  let reduce_only := eps2.2.isNone
  let stop_order : OrderRequest :=
    { symbol := eps2.1._symbol, side := stop_side, order_type := "STOP_MARKET"
      stop_price := some sizing.stop_loss, quantity := sizing.quantity
      reduce_only := reduce_only, position_side := eps2.2 }
  let take_profit_order : OrderRequest :=
    { symbol := eps2.1._symbol, side := tp_side, order_type := "TAKE_PROFIT_MARKET"
      stop_price := some sizing.take_profit, quantity := sizing.quantity
      reduce_only := reduce_only, position_side := eps2.2 }
  (eps2.1, [order, stop_order, take_profit_order], sizing)

/-- `TradeEngine.process_signal`, translated branch by branch.  Returns the
engine after the cycle, the outbound calls made, and the report. -/
def TradeEngine.process_signal (envDual : Bool) (e : TradeEngine) (decision : SignalDecision)
    (price : ℚ) (volatility : VolatilitySnapshot) :
    TradeEngine × EngineEffects × ExecutionReport :=
  let el := e._ensure_leverage
  let e1 := el.1
  let levCalls := el.2
  let position := e1._portfolio.get_position e1._symbol
  if decision.direction = "flat" then
    match position with
    | some p =>
        let ec := e1._close_position envDual p
        let e2 := { ec.1 with _portfolio := ec.1._portfolio.remove_position ec.1._symbol }
        (e2, ⟨levCalls, [ec.2]⟩, { closed := true, message := "Fechando posicao por sinal neutro" })
    | none => (e1, ⟨levCalls, []⟩, { message := "Nada a fazer - sinal neutro" })
  else
    match position with
    | some p =>
        if p.direction ≠ decision.direction then
          let ec := e1._close_position envDual p
          let e2 := { ec.1 with _portfolio := ec.1._portfolio.remove_position ec.1._symbol }
          (e2, ⟨levCalls, [ec.2]⟩, { closed := true, message := "Reversao de posicao" })
        else (e1, ⟨levCalls, []⟩, { message := "Mantendo posicao atual" })
    | none =>
        if !(e1._portfolio.can_open e1._symbol) then
          (e1, ⟨levCalls, []⟩, { message := "Limite de posicoes atingido" })
        else
          let sizing := e1._risk.size_position price volatility decision.direction
          if sizing.quantity ≤ 0 then
            (e1, ⟨levCalls, []⟩, { message := "Tamanho de posicao invalido" })
          else
            let eo := e1._open_position envDual decision.direction sizing
            let sized := eo.2.2
            let new_position : Position :=
              { symbol := eo.1._symbol, direction := decision.direction, entry_price := price
                quantity := sized.quantity, stop_loss := sized.stop_loss
                take_profit := sized.take_profit, trailing_active := sized.trailing_active
                notional := sized.notional, cost := sized.cost }
            let e2 := { eo.1 with _portfolio := eo.1._portfolio.add_position new_position }
            (e2, ⟨levCalls, eo.2.1⟩, { opened := true, message := "Posicao aberta" })

/-! ## app/exchange/binance_client.py : order normalization

`Decimal` values are modelled as exact rationals.  `Decimal.__floordiv__`
truncates the quotient toward zero, and the subsequent
`quantize(step, ROUND_DOWN).normalize()` only adjusts the exponent of a
value that is already an exact multiple of the step, so numerically the
rounding is `trunc(value / step) * step`. -/

/-- Integer quotient truncated toward zero, as `Decimal // Decimal`. -/
def truncDiv (a b : ℚ) : ℤ :=
  if 0 ≤ a / b then ⌊a / b⌋ else ⌈a / b⌉

/-- `BinanceFuturesClient._round_to_step` (value already a number; a `None`
or nonpositive step leaves the value unchanged). -/
def BinanceFuturesClient._round_to_step (value : ℚ) (step : Option ℚ) : ℚ :=
  match step with
  | none => value
  | some s => if s ≤ 0 then value else (truncDiv value s : ℚ) * s

/-- The quantity-relevant part of one instrument's trading filters:
`stepSize` and `minQty` of the selected lot filter. -/
structure LotFilter where
  stepSize : Option ℚ
  minQty : Option ℚ
deriving Repr, DecidableEq

/-- The quantity branch of `BinanceFuturesClient._apply_symbol_filters`:
round down to the step, reject nonpositive or below-minimum results
(`ValueError`, classified as `InvalidOrder` in the error taxonomy). -/
def BinanceFuturesClient._apply_quantity_filter (quantity : ℚ) (lot : LotFilter) :
    Except String ℚ :=
  let qty := BinanceFuturesClient._round_to_step quantity lot.stepSize
  if qty ≤ 0 then .error "Quantidade invalida apos ajuste"
  else
    match lot.minQty with
    | some m => if qty < m then .error "Quantidade menor que minimo" else .ok qty
    | none => .ok qty

/-- The quantity actually transmitted by `place_order`: `params` carries a
`quantity` key only when `order.quantity` is truthy (nonzero), and the lot
filter is applied only to a present key; `.error` means the order is
rejected before transmission. -/
def BinanceFuturesClient.place_order_quantity (quantity : ℚ) (lot : Option LotFilter) :
    Except String (Option ℚ) :=
  if quantity = 0 then .ok none
  else
    match lot with
    | none => .ok (some quantity)
    | some f => (BinanceFuturesClient._apply_quantity_filter quantity f).map some

/-! ## Derived definitions used by the verification -/

/-- The composite score exactly as the claim words it (the code's
liquidation component rewritten as a subtraction plus the flat bonus). -/
def claimComposite (w : List (String × ℚ)) (technical : TechnicalSnapshot)
    (order_flow : OrderFlowSnapshot) (volatility : VolatilitySnapshot) : ℚ :=
  technical.trend_score * dictGet w "trend_score_weight" (2/5)
    + technical.momentum_score * dictGet w "momentum_score_weight" (1/4)
    + order_flow.imbalance * dictGet w "orderflow_score_weight" (1/5)
    - order_flow.liquidation_pressure * (dictGet w "liquidity_score_weight" (3/20) / 2)
    + (if volatility.structure_break then 1/2 else 0)

/-- Long-liquidation volume currently in the window. -/
def OrderFlowAnalyzer.long_liq (a : OrderFlowAnalyzer) : ℚ :=
  ((a.liquidations.filter (fun l => l.2)).map (fun l => l.1)).sum

/-- Short-liquidation volume currently in the window. -/
def OrderFlowAnalyzer.short_liq (a : OrderFlowAnalyzer) : ℚ :=
  ((a.liquidations.filter (fun l => !l.2)).map (fun l => l.1)).sum

/-- All recorded quantities are nonnegative. -/
def OrderFlowAnalyzer.nonnegQuantities (a : OrderFlowAnalyzer) : Prop :=
  (∀ t ∈ a.trades, 0 ≤ t.2.1) ∧ (∀ l ∈ a.liquidations, 0 ≤ l.1)

/-- Number of stored positions carrying a given symbol. -/
def symbolCount (m : PortfolioManager) (symbol : String) : ℕ :=
  (m._state.positions.filter (fun kv => kv.1 == symbol)).length

/-- The portfolio dict has no duplicate symbol keys. -/
def keysNodup (m : PortfolioManager) : Prop :=
  (m._state.positions.map Prod.fst).Nodup

/-! ## Theorems -/

theorem mem_dequeAppend {α : Type} {maxlen : ℕ} {xs : List α} {x y : α}
    (h : y ∈ dequeAppend maxlen xs x) : y ∈ xs ++ [x] := by
  unfold dequeAppend at h
  dsimp only at h
  split at h
  · exact h
  · exact List.mem_of_mem_drop h

theorem apply_nonneg {a : OrderFlowAnalyzer} {u : FlowUpdate}
    (ha : a.nonnegQuantities) (hu : 0 ≤ u.quantity) : (a.apply u).nonnegQuantities := by
  cases u with
  | trade p q m =>
      refine ⟨fun t ht => ?_, ha.2⟩
      rcases List.mem_append.mp (mem_dequeAppend ht) with h | h
      · exact ha.1 t h
      · simp only [List.mem_singleton] at h
        subst h
        exact hu
  | liquidation q s =>
      refine ⟨ha.1, fun l hl => ?_⟩
      rcases List.mem_append.mp (mem_dequeAppend hl) with h | h
      · exact ha.2 l h
      · simp only [List.mem_singleton] at h
        subst h
        exact hu

theorem run_nonneg (maxlen : ℕ) (us : List FlowUpdate)
    (h : ∀ u ∈ us, 0 ≤ u.quantity) : (OrderFlowAnalyzer.run maxlen us).nonnegQuantities := by
  have general : ∀ (l : List FlowUpdate) (a : OrderFlowAnalyzer),
      (∀ u ∈ l, 0 ≤ u.quantity) → a.nonnegQuantities →
      (l.foldl OrderFlowAnalyzer.apply a).nonnegQuantities := by
    intro l
    induction l with
    | nil => intro a _ ha; exact ha
    | cons u l ih =>
        intro a hl ha
        exact ih _ (fun v hv => hl v (List.mem_cons_of_mem _ hv))
          (apply_nonneg ha (hl u (List.mem_cons_self _ _)))
  exact general us _ h ⟨by simp [OrderFlowAnalyzer.init], by simp [OrderFlowAnalyzer.init]⟩

theorem run_trades_nil (maxlen : ℕ) (us : List FlowUpdate)
    (h : ∀ u ∈ us, u.isTrade = false) : (OrderFlowAnalyzer.run maxlen us).trades = [] := by
  have general : ∀ (l : List FlowUpdate) (a : OrderFlowAnalyzer),
      (∀ u ∈ l, u.isTrade = false) → a.trades = [] →
      (l.foldl OrderFlowAnalyzer.apply a).trades = [] := by
    intro l
    induction l with
    | nil => intro a _ ha; exact ha
    | cons u l ih =>
        intro a hl ha
        cases u with
        | trade p q m =>
            exact absurd (hl _ (List.mem_cons_self _ _)) (by simp [FlowUpdate.isTrade])
        | liquidation q s =>
            exact ih _ (fun v hv => hl v (List.mem_cons_of_mem _ hv)) ha
  exact general us _ h rfl

theorem filtered_sum_nonneg {β : Type} (l : List β) (p : β → Bool) (f : β → ℚ)
    (h : ∀ x ∈ l, 0 ≤ f x) : 0 ≤ ((l.filter p).map f).sum := by
  refine List.sum_nonneg ?_
  intro q hq
  rcases List.mem_map.mp hq with ⟨x, hx, rfl⟩
  exact h x (List.mem_filter.mp hx).1

theorem ratio_bounds {b s : ℚ} (hb : 0 ≤ b) (hs : 0 ≤ s) :
    -1 ≤ (if b + s = 0 then 0 else (b - s) / (b + s)) ∧
      (if b + s = 0 then 0 else (b - s) / (b + s)) ≤ 1 := by
  split_ifs with h
  · norm_num
  · have ht : 0 < b + s := lt_of_le_of_ne (by linarith) (Ne.symm h)
    constructor
    · rw [neg_le, ← neg_div]
      rw [div_le_one ht]
      linarith
    · rw [div_le_one ht]
      linarith

theorem ite_div_eq (d t : ℚ) : (if t = 0 then 0 else d / t) = d / t := by
  split_ifs with h
  · rw [h, div_zero]
  · rfl

theorem liq_ratio_bounds {long short : ℚ} (hl : 0 ≤ long) (hs : 0 ≤ short) :
    -1 ≤ (if long + short = 0 then 0 else (short - long) / (long + short)) ∧
      (if long + short = 0 then 0 else (short - long) / (long + short)) ≤ 1 := by
  split_ifs with h
  · norm_num
  · have ht : 0 < long + short := lt_of_le_of_ne (by linarith) (Ne.symm h)
    constructor
    · rw [neg_le, ← neg_div, div_le_one ht]
      linarith
    · rw [div_le_one ht]
      linarith

theorem snapshot_spec (a : OrderFlowAnalyzer)
    (htr : ∀ t ∈ a.trades, 0 ≤ t.2.1) (hlq : ∀ l ∈ a.liquidations, 0 ≤ l.1) :
    (a.snapshot.imbalance
      = (a.snapshot.buy_volume - a.snapshot.sell_volume)
        / (a.snapshot.buy_volume + a.snapshot.sell_volume)) ∧
    (-1 ≤ a.snapshot.imbalance ∧ a.snapshot.imbalance ≤ 1) ∧
    (a.trades = [] → a.snapshot.imbalance = 0) ∧
    (a.snapshot.liquidation_pressure
      = (a.short_liq - a.long_liq) / (a.long_liq + a.short_liq)) ∧
    (-1 ≤ a.snapshot.liquidation_pressure ∧ a.snapshot.liquidation_pressure ≤ 1) ∧
    (a.long_liq + a.short_liq = 0 → a.snapshot.liquidation_pressure = 0) := by
  have hB : 0 ≤ ((a.trades.filter (fun t => t.2.2)).map (fun t => t.2.1)).sum :=
    filtered_sum_nonneg _ _ _ htr
  have hS : 0 ≤ ((a.trades.filter (fun t => !t.2.2)).map (fun t => t.2.1)).sum :=
    filtered_sum_nonneg _ _ _ htr
  have hL : 0 ≤ ((a.liquidations.filter (fun l => l.2)).map (fun l => l.1)).sum :=
    filtered_sum_nonneg _ _ _ hlq
  have hSh : 0 ≤ ((a.liquidations.filter (fun l => !l.2)).map (fun l => l.1)).sum :=
    filtered_sum_nonneg _ _ _ hlq
  unfold OrderFlowAnalyzer.snapshot OrderFlowAnalyzer.long_liq OrderFlowAnalyzer.short_liq
  dsimp only
  refine ⟨?_, ?_, ?_, ?_, ?_, ?_⟩
  · exact ite_div_eq _ _
  · exact ratio_bounds hB hS
  · intro h
    simp only [h, List.filter_nil, List.map_nil, List.sum_nil]
    norm_num
  · exact ite_div_eq _ _
  · exact liq_ratio_bounds hL hSh
  · intro h
    simp [h]

theorem find_dictInsert {α : Type} (d : List (String × α)) (k : String) (v : α) :
    (dictInsert d k v).find? (fun kv => kv.1 == k) = some (k, v) := by
  induction d with
  | nil => simp [dictInsert]
  | cons hd tl ih =>
      by_cases hk : hd.1 == k
      · have hany : (hd :: tl).any (fun kv => kv.1 == k) = true := by
          simp [List.any_cons, hk]
        rw [dictInsert, if_pos hany]
        simp only [List.map_cons, if_pos hk]
        rw [List.find?_cons_of_pos]
        simp
      · by_cases htl : tl.any (fun kv => kv.1 == k)
        · have hany : (hd :: tl).any (fun kv => kv.1 == k) = true := by
            simp [List.any_cons, htl]
          rw [dictInsert, if_pos hany]
          simp only [List.map_cons, if_neg hk]
          rw [List.find?_cons_of_neg _ (by simpa using hk)]
          have := ih
          rw [dictInsert, if_pos htl] at this
          exact this
        · have hk' : (hd.1 == k) = false := by
            cases hhd : hd.1 == k
            · rfl
            · exact absurd hhd hk
          have htl' : tl.any (fun kv => kv.1 == k) = false := by
            cases h' : tl.any (fun kv => kv.1 == k)
            · rfl
            · exact absurd h' htl
          have hany : (hd :: tl).any (fun kv => kv.1 == k) = false := by
            simp [List.any_cons, hk', htl']
          rw [dictInsert, if_neg (by simp [hany])]
          rw [List.cons_append, List.find?_cons_of_neg _ (by simpa using hk)]
          have := ih
          rw [dictInsert, if_neg (by simp [htl])] at this
          exact this

theorem keys_dictInsert_of_mem {α : Type} (d : List (String × α)) (k : String) (v : α)
    (h : d.any (fun kv => kv.1 == k) = true) :
    (dictInsert d k v).map Prod.fst = d.map Prod.fst := by
  rw [dictInsert, if_pos h, List.map_map]
  apply List.map_congr_left
  intro kv _
  by_cases hk : kv.1 == k
  · simp only [Function.comp_apply, if_pos hk]
    exact (beq_iff_eq.mp hk).symm
  · simp only [Function.comp_apply, if_neg hk]

theorem keys_dictInsert_of_not_mem {α : Type} (d : List (String × α)) (k : String) (v : α)
    (h : d.any (fun kv => kv.1 == k) = false) :
    (dictInsert d k v).map Prod.fst = d.map Prod.fst ++ [k] := by
  rw [dictInsert, if_neg (by simp [h]), List.map_append]
  rfl

theorem nodup_dictInsert {α : Type} (d : List (String × α)) (k : String) (v : α)
    (h : (d.map Prod.fst).Nodup) : ((dictInsert d k v).map Prod.fst).Nodup := by
  by_cases ha : d.any (fun kv => kv.1 == k)
  · rw [keys_dictInsert_of_mem _ _ _ ha]
    exact h
  · have ha' : d.any (fun kv => kv.1 == k) = false := by
      cases h' : d.any (fun kv => kv.1 == k)
      · rfl
      · exact absurd h' ha
    rw [keys_dictInsert_of_not_mem _ _ _ ha']
    rw [List.nodup_append]
    refine ⟨h, List.nodup_singleton k, ?_⟩
    intro x hx hk
    simp only [List.mem_singleton] at hk
    subst hk
    rcases List.mem_map.mp hx with ⟨kv, hkv, hfst⟩
    have := List.any_eq_false.mp ha' kv hkv
    exact this (by rw [beq_iff_eq]; exact hfst)

theorem length_filter_key_le_one {α : Type} (d : List (String × α)) (s : String)
    (h : (d.map Prod.fst).Nodup) : (d.filter (fun kv => kv.1 == s)).length ≤ 1 := by
  induction d with
  | nil => simp
  | cons hd tl ih =>
      rw [List.map_cons, List.nodup_cons] at h
      by_cases hs : hd.1 == s
      · have hnil : tl.filter (fun kv => kv.1 == s) = [] := by
          rw [List.filter_eq_nil_iff]
          intro kv hkv hkvs
          apply h.1
          have h1 : kv.1 = s := beq_iff_eq.mp hkvs
          have h2 : hd.1 = s := beq_iff_eq.mp hs
          rw [List.mem_map]
          exact ⟨kv, hkv, by rw [h1, h2]⟩
        rw [List.filter_cons, if_pos hs, hnil]
        simp
      · have hs' : (hd.1 == s) = false := by
          cases h' : hd.1 == s
          · rfl
          · exact absurd h' hs
        rw [List.filter_cons, if_neg (by simp [hs'])]
        exact ih h.2

theorem can_open_add_le (m : PortfolioManager) (pos : Position)
    (h : m.can_open pos.symbol = true) :
    (m.add_position pos)._state.positions.length ≤ m._max_positions := by
  unfold PortfolioManager.can_open at h
  by_cases ha : m._state.positions.any (fun kv => kv.1 == pos.symbol)
  · rw [if_pos ha] at h
    exact absurd h (by simp)
  · rw [if_neg ha] at h
    have hlt : m._state.positions.length < m._max_positions := of_decide_eq_true h
    have ha' : m._state.positions.any (fun kv => kv.1 == pos.symbol) = false := by
      cases h' : m._state.positions.any (fun kv => kv.1 == pos.symbol)
      · rfl
      · exact absurd h' ha
    unfold PortfolioManager.add_position dictInsert
    rw [if_neg (by simp [ha'])]
    dsimp only
    rw [List.length_append]
    simpa using hlt

theorem ensure_leverage_frame (e : TradeEngine) :
    (e._ensure_leverage).1._portfolio = e._portfolio ∧
    (e._ensure_leverage).1._symbol = e._symbol := by
  by_cases h : e._leverage_synced <;> simp [TradeEngine._ensure_leverage, h]

theorem position_side_frame (envDual : Bool) (e : TradeEngine) (direction : String) :
    ((e._position_side_for envDual direction).1)._portfolio = e._portfolio ∧
    ((e._position_side_for envDual direction).1)._symbol = e._symbol := by
  unfold TradeEngine._position_side_for TradeEngine._is_dual_position_mode
  by_cases h : direction ≠ "long" ∧ direction ≠ "short"
  · rw [if_pos h]
    exact ⟨rfl, rfl⟩
  · rw [if_neg h]
    cases hd : e._dual_side_position <;> dsimp only <;> split <;> simp

theorem close_position_components (envDual : Bool) (e : TradeEngine) (p : Position) :
    (e._close_position envDual p).1._portfolio = e._portfolio ∧
    (e._close_position envDual p).1._symbol = e._symbol ∧
    (e._close_position envDual p).2.side = (if p.direction = "long" then "SELL" else "BUY") ∧
    (e._close_position envDual p).2.quantity = p.quantity ∧
    (e._close_position envDual p).2.order_type = "MARKET" := by
  unfold TradeEngine._close_position
  dsimp only
  exact ⟨(position_side_frame envDual e p.direction).1,
    (position_side_frame envDual e p.direction).2, rfl, rfl, rfl⟩

theorem get_after_remove (m : PortfolioManager) (sym : String) :
    (m.remove_position sym).get_position sym = none ∧
    (m.remove_position sym)._state.positions.filter (fun kv => kv.1 == sym) = [] := by
  unfold PortfolioManager.remove_position
  by_cases ha : m._state.positions.any (fun kv => kv.1 == sym)
  · rw [if_pos ha]
    constructor
    · unfold PortfolioManager.get_position
      dsimp only
      rw [List.find?_eq_none.mpr]
      · rfl
      · intro kv hkv
        have := (List.mem_filter.mp hkv).2
        simp only [bne_iff_ne, ne_eq] at this
        simpa using this
    · dsimp only
      rw [List.filter_eq_nil_iff]
      intro kv hkv
      have := (List.mem_filter.mp hkv).2
      simp only [bne_iff_ne, ne_eq] at this
      simpa using this
  · rw [if_neg ha]
    have hab : m._state.positions.any (fun kv => kv.1 == sym) = false := by
      cases h' : m._state.positions.any (fun kv => kv.1 == sym)
      · rfl
      · exact absurd h' ha
    have ha' := List.any_eq_false.mp hab
    constructor
    · unfold PortfolioManager.get_position
      rw [List.find?_eq_none.mpr]
      · rfl
      · intro kv hkv
        exact ha' kv hkv
    · rw [List.filter_eq_nil_iff]
      intro kv hkv
      exact ha' kv hkv

theorem risk_size_empty (r : RiskManager) (price : ℚ) (volatility : VolatilitySnapshot)
    (direction : String)
    (h : (direction ≠ "long" ∧ direction ≠ "short") ∨ price ≤ 0
      ∨ volatility.atr * dictGet r._config "atr_multiplier_sl" (5/2) ≤ 0) :
    r.size_position price volatility direction = r._empty_sizing := by
  simp only [RiskManager.size_position]
  by_cases h1 : direction ≠ "long" ∧ direction ≠ "short"
  · rw [if_pos h1]
  · rw [if_neg h1]
    by_cases h2 : price ≤ 0
    · rw [if_pos h2]
    · rw [if_neg h2]
      by_cases h3 : volatility.atr * dictGet r._config "atr_multiplier_sl" (5/2) ≤ 0
      · rw [if_pos h3]
      · rcases h with h | h | h
        · exact absurd h h1
        · exact absurd h h2
        · exact absurd h h3

/-- `_round_to_step` on the spec's example: 0.123456 at step 0.01 gives 0.12. -/
theorem round_to_step_example :
    BinanceFuturesClient._round_to_step (123456/1000000) (some (1/100)) = 12/100 := by
  have hdiv : (123456/1000000 : ℚ) / (1/100) = 123456/10000 := by norm_num
  have hfloor : ⌊(123456/10000 : ℚ)⌋ = 12 := by
    rw [Int.floor_eq_iff]
    constructor
    · norm_num
    · norm_num
  unfold BinanceFuturesClient._round_to_step truncDiv
  dsimp only
  rw [if_neg (by norm_num), if_pos (by rw [hdiv]; norm_num), hdiv, hfloor]
  norm_num

/-- Claim C1: for every symbol, snapshots and weight configuration,
`SignalEngine.evaluate` returns direction "long" iff the composite score
exceeds 1/4, "short" iff it is below -1/4, "flat" otherwise, with
confidence min(1, |composite|), where the composite is
trend*trend_w + momentum*momentum_w + imbalance*orderflow_w
- liquidation_pressure*(liquidity_w/2) + a flat, weight-independent 1/2
bonus when structure_break holds (`claimComposite`). -/
theorem signal_engine_evaluate_spec (w : List (String × ℚ)) (symbol : String) (technical : TechnicalSnapshot)
    (order_flow : OrderFlowSnapshot) (volatility : VolatilitySnapshot) :
    (((SignalEngine.mk w).evaluate symbol technical order_flow volatility).direction = "long"
      ↔ claimComposite w technical order_flow volatility > 1/4) ∧
    (((SignalEngine.mk w).evaluate symbol technical order_flow volatility).direction = "short"
      ↔ claimComposite w technical order_flow volatility < -(1/4)) ∧
    (((SignalEngine.mk w).evaluate symbol technical order_flow volatility).direction = "flat"
      ↔ (-(1/4) ≤ claimComposite w technical order_flow volatility
          ∧ claimComposite w technical order_flow volatility ≤ 1/4)) ∧
    ((SignalEngine.mk w).evaluate symbol technical order_flow volatility).confidence
      = min 1 |claimComposite w technical order_flow volatility| := by
  have hcomp :
      technical.trend_score * dictGet w "trend_score_weight" (2/5)
        + technical.momentum_score * dictGet w "momentum_score_weight" (1/4)
        + order_flow.imbalance * dictGet w "orderflow_score_weight" (1/5)
        + ((-order_flow.liquidation_pressure) * (dictGet w "liquidity_score_weight" (3/20) / 2)
            + (if volatility.structure_break then (1:ℚ)/2 else 0))
      = claimComposite w technical order_flow volatility := by
    unfold claimComposite; ring
  unfold SignalEngine.evaluate
  dsimp only
  rw [hcomp]
  refine ⟨?_, ?_, ?_, ?_⟩
  · split_ifs with h1 h2
    · exact ⟨fun _ => h1, fun _ => rfl⟩
    · exact ⟨fun h => absurd h (by decide), fun h => absurd h (by linarith)⟩
    · exact ⟨fun h => absurd h (by decide), fun h => absurd h h1⟩
  · split_ifs with h1 h2
    · exact ⟨fun h => absurd h (by decide), fun h => absurd h (by linarith)⟩
    · exact ⟨fun _ => h2, fun _ => rfl⟩
    · exact ⟨fun h => absurd h (by decide), fun h => absurd h h2⟩
  · split_ifs with h1 h2
    · exact ⟨fun h => absurd h (by decide), fun h => absurd h1 (by linarith [h.2])⟩
    · exact ⟨fun h => absurd h (by decide), fun h => absurd h2 (by linarith [h.1])⟩
    · exact ⟨fun _ => ⟨by linarith, by linarith⟩, fun _ => rfl⟩
  · rw [max_eq_right (abs_nonneg _)]

/-- Claim C2: with a position open for the engine's symbol and a long/short
decision of the opposite direction, `process_signal` closes the position
(a single opposing market order for the full quantity), removes it from
the portfolio leaving zero positions for the symbol, reports a reversal,
and opens nothing in the new direction within the same cycle. -/
theorem trade_engine_reversal (envDual : Bool) (e : TradeEngine) (decision : SignalDecision)
    (price : ℚ) (volatility : VolatilitySnapshot) (p : Position)
    (hpos : e._portfolio.get_position e._symbol = some p)
    (hdir : decision.direction = "long" ∨ decision.direction = "short")
    (hne : decision.direction ≠ p.direction) :
    ((TradeEngine.process_signal envDual e decision price volatility).1._portfolio.get_position
        e._symbol = none) ∧
    ((TradeEngine.process_signal envDual e decision price
        volatility).1._portfolio._state.positions.filter (fun kv => kv.1 == e._symbol) = []) ∧
    ((TradeEngine.process_signal envDual e decision price volatility).2.2.closed = true) ∧
    ((TradeEngine.process_signal envDual e decision price volatility).2.2.opened = false) ∧
    ((TradeEngine.process_signal envDual e decision price volatility).2.2.message
        = "Reversao de posicao") ∧
    ((TradeEngine.process_signal envDual e decision price volatility).2.1.orders.length = 1) ∧
    (∀ o ∈ (TradeEngine.process_signal envDual e decision price volatility).2.1.orders,
      o.side = (if p.direction = "long" then "SELL" else "BUY") ∧
      o.quantity = p.quantity ∧ o.order_type = "MARKET") := by
  have hnf : ¬decision.direction = "flat" := by
    rcases hdir with h | h <;> rw [h] <;> simp
  have hef := ensure_leverage_frame e
  have hcf := close_position_components envDual (e._ensure_leverage).1 p
  simp only [TradeEngine.process_signal]
  rw [if_neg hnf, hef.1, hef.2, hpos]
  dsimp only
  rw [if_pos (Ne.symm hne)]
  dsimp only
  rw [hcf.2.1, hef.2]
  refine ⟨(get_after_remove _ _).1, (get_after_remove _ _).2, rfl, rfl, rfl, rfl, ?_⟩
  intro o ho
  simp only [List.mem_singleton] at ho
  subst ho
  exact ⟨hcf.2.2.1, hcf.2.2.2.1, hcf.2.2.2.2⟩

/-- Witness for `trade_engine_reversal`: a short signal against an open
long closes it. -/
theorem trade_engine_reversal_witness :
    ((TradeEngine.mk ((PortfolioManager.init 1).add_position
        ⟨"BTCUSDT", "long", 100, 1, 90, 120, false, 100, 20⟩)
        (RiskManager.init 10000 5 (1/100) [] 0) "BTCUSDT" true none)._portfolio.get_position
        "BTCUSDT" = some ⟨"BTCUSDT", "long", 100, 1, 90, 120, false, 100, 20⟩) ∧
    ("short" ≠ "long") ∧
    ((TradeEngine.process_signal false
        (TradeEngine.mk ((PortfolioManager.init 1).add_position
          ⟨"BTCUSDT", "long", 100, 1, 90, 120, false, 100, 20⟩)
          (RiskManager.init 10000 5 (1/100) [] 0) "BTCUSDT" true none)
        ⟨"BTCUSDT", "short", 1, []⟩ 100
        ⟨100, 0, 0, false, "normal"⟩).1._portfolio.get_position "BTCUSDT" = none) ∧
    ((TradeEngine.process_signal false
        (TradeEngine.mk ((PortfolioManager.init 1).add_position
          ⟨"BTCUSDT", "long", 100, 1, 90, 120, false, 100, 20⟩)
          (RiskManager.init 10000 5 (1/100) [] 0) "BTCUSDT" true none)
        ⟨"BTCUSDT", "short", 1, []⟩ 100
        ⟨100, 0, 0, false, "normal"⟩).2.2.closed = true) ∧
    ((TradeEngine.process_signal false
        (TradeEngine.mk ((PortfolioManager.init 1).add_position
          ⟨"BTCUSDT", "long", 100, 1, 90, 120, false, 100, 20⟩)
          (RiskManager.init 10000 5 (1/100) [] 0) "BTCUSDT" true none)
        ⟨"BTCUSDT", "short", 1, []⟩ 100
        ⟨100, 0, 0, false, "normal"⟩).2.2.message = "Reversao de posicao") := by
  have hpos : (TradeEngine.mk ((PortfolioManager.init 1).add_position
      ⟨"BTCUSDT", "long", 100, 1, 90, 120, false, 100, 20⟩)
      (RiskManager.init 10000 5 (1/100) [] 0) "BTCUSDT" true none)._portfolio.get_position
      "BTCUSDT" = some ⟨"BTCUSDT", "long", 100, 1, 90, 120, false, 100, 20⟩ := rfl
  have h := trade_engine_reversal false
    (TradeEngine.mk ((PortfolioManager.init 1).add_position
      ⟨"BTCUSDT", "long", 100, 1, 90, 120, false, 100, 20⟩)
      (RiskManager.init 10000 5 (1/100) [] 0) "BTCUSDT" true none)
    ⟨"BTCUSDT", "short", 1, []⟩ 100 ⟨100, 0, 0, false, "normal"⟩
    ⟨"BTCUSDT", "long", 100, 1, 90, 120, false, 100, 20⟩
    hpos (Or.inr rfl) (by simp)
  exact ⟨hpos, by simp, h.1, h.2.2.1, h.2.2.2.2.1⟩

/-- Claim C3 as frozen is false: with no open position but
`_leverage_synced = false`, a flat decision still flips the engine's
leverage flag and issues a `change_leverage` call, so state is mutated. -/
theorem trade_engine_flat_counterexample :
    ((TradeEngine.mk (PortfolioManager.init 1)
        (RiskManager.init 10000 5 (1/100) [] 0) "BTCUSDT" false none)._portfolio.get_position
        "BTCUSDT" = none) ∧
    ((⟨"BTCUSDT", "flat", 0, []⟩ : SignalDecision).direction = "flat") ∧
    ((TradeEngine.process_signal false
        (TradeEngine.mk (PortfolioManager.init 1)
          (RiskManager.init 10000 5 (1/100) [] 0) "BTCUSDT" false none)
        ⟨"BTCUSDT", "flat", 0, []⟩ 100 ⟨100, 0, 0, false, "normal"⟩).1
      ≠ TradeEngine.mk (PortfolioManager.init 1)
          (RiskManager.init 10000 5 (1/100) [] 0) "BTCUSDT" false none) ∧
    ((TradeEngine.process_signal false
        (TradeEngine.mk (PortfolioManager.init 1)
          (RiskManager.init 10000 5 (1/100) [] 0) "BTCUSDT" false none)
        ⟨"BTCUSDT", "flat", 0, []⟩ 100 ⟨100, 0, 0, false, "normal"⟩).2.1.leverage_calls
      ≠ []) := by
  refine ⟨rfl, rfl, ?_, ?_⟩
  · intro h
    have h1 : (TradeEngine.process_signal false
        (TradeEngine.mk (PortfolioManager.init 1)
          (RiskManager.init 10000 5 (1/100) [] 0) "BTCUSDT" false none)
        ⟨"BTCUSDT", "flat", 0, []⟩ 100 ⟨100, 0, 0, false, "normal"⟩).1._leverage_synced
        = true := rfl
    rw [h] at h1
    simp at h1
  · intro h
    have h1 : (TradeEngine.process_signal false
        (TradeEngine.mk (PortfolioManager.init 1)
          (RiskManager.init 10000 5 (1/100) [] 0) "BTCUSDT" false none)
        ⟨"BTCUSDT", "flat", 0, []⟩ 100 ⟨100, 0, 0, false, "normal"⟩).2.1.leverage_calls
        = [("BTCUSDT", 5)] := rfl
    rw [h] at h1
    exact List.noConfusion h1

/-- Claim C3 (amended: leverage must already be synced): with no open
position and leverage already synced, a flat decision is a complete no-op:
the engine is returned unchanged, no outbound calls are made and the
report is the "Nada a fazer" message. -/
theorem trade_engine_flat_noop (envDual : Bool) (e : TradeEngine) (decision : SignalDecision)
    (price : ℚ) (volatility : VolatilitySnapshot)
    (hsync : e._leverage_synced = true)
    (hpos : e._portfolio.get_position e._symbol = none)
    (hflat : decision.direction = "flat") :
    (TradeEngine.process_signal envDual e decision price volatility).1 = e ∧
    (TradeEngine.process_signal envDual e decision price volatility).2.1
      = ⟨[], []⟩ ∧
    (TradeEngine.process_signal envDual e decision price volatility).2.2
      = ⟨false, false, false, "Nada a fazer - sinal neutro"⟩ := by
  simp only [TradeEngine.process_signal, TradeEngine._ensure_leverage, hsync, hflat,
    if_true, ite_true]
  rw [hpos]
  exact ⟨rfl, rfl, rfl⟩

/-- Witness for `trade_engine_flat_noop` on a synced engine. -/
theorem trade_engine_flat_noop_witness :
    ((TradeEngine.mk (PortfolioManager.init 1)
        (RiskManager.init 10000 5 (1/100) [] 0) "BTCUSDT" true none)._leverage_synced = true) ∧
    ((TradeEngine.process_signal true
        (TradeEngine.mk (PortfolioManager.init 1)
          (RiskManager.init 10000 5 (1/100) [] 0) "BTCUSDT" true none)
        ⟨"BTCUSDT", "flat", 0, []⟩ 100 ⟨100, 0, 0, false, "normal"⟩).1
      = TradeEngine.mk (PortfolioManager.init 1)
          (RiskManager.init 10000 5 (1/100) [] 0) "BTCUSDT" true none) ∧
    ((TradeEngine.process_signal true
        (TradeEngine.mk (PortfolioManager.init 1)
          (RiskManager.init 10000 5 (1/100) [] 0) "BTCUSDT" true none)
        ⟨"BTCUSDT", "flat", 0, []⟩ 100 ⟨100, 0, 0, false, "normal"⟩).2.1
      = ⟨[], []⟩) := by
  have h := trade_engine_flat_noop true
    (TradeEngine.mk (PortfolioManager.init 1)
      (RiskManager.init 10000 5 (1/100) [] 0) "BTCUSDT" true none)
    ⟨"BTCUSDT", "flat", 0, []⟩ 100 ⟨100, 0, 0, false, "normal"⟩ rfl rfl rfl
  exact ⟨rfl, h.1, h.2.1⟩

/-- Claim C4: `RiskManager.size_position` returns the empty sizing
(quantity, notional, cost all 0 and trailing inactive) whenever the
direction is neither "long" nor "short", or the price is nonpositive, or
ATR times the stop-loss multiplier is nonpositive (in particular whenever
ATR = 0). -/
theorem risk_manager_rejects_invalid (r : RiskManager) (price : ℚ)
    (volatility : VolatilitySnapshot) (direction : String)
    (h : (direction ≠ "long" ∧ direction ≠ "short") ∨ price ≤ 0
      ∨ volatility.atr * dictGet r._config "atr_multiplier_sl" (5/2) ≤ 0) :
    (r.size_position price volatility direction).quantity = 0 ∧
    (r.size_position price volatility direction).notional = 0 ∧
    (r.size_position price volatility direction).cost = 0 ∧
    (r.size_position price volatility direction).trailing_active = false := by
  rw [risk_size_empty r price volatility direction h]
  exact ⟨rfl, rfl, rfl, rfl⟩

/-- Witness for `risk_manager_rejects_invalid` at ATR = 0. -/
theorem risk_manager_rejects_invalid_witness :
    (((⟨0, 0, 2, false, "normal"⟩ : VolatilitySnapshot).atr = 0) ∧
      ((RiskManager.init 10000 5 (1/100) [] 0).size_position 500
        ⟨0, 0, 2, false, "normal"⟩ "long").quantity = 0 ∧
      ((RiskManager.init 10000 5 (1/100) [] 0).size_position 500
        ⟨0, 0, 2, false, "normal"⟩ "long").notional = 0 ∧
      ((RiskManager.init 10000 5 (1/100) [] 0).size_position 500
        ⟨0, 0, 2, false, "normal"⟩ "long").cost = 0 ∧
      ((RiskManager.init 10000 5 (1/100) [] 0).size_position 500
        ⟨0, 0, 2, false, "normal"⟩ "long").trailing_active = false) := by
  have h := risk_manager_rejects_invalid (RiskManager.init 10000 5 (1/100) [] 0) 500
    ⟨0, 0, 2, false, "normal"⟩ "long" (Or.inr (Or.inr (by norm_num)))
  exact ⟨rfl, h.1, h.2.1, h.2.2.1, h.2.2.2⟩

/-- Claim C5: on a valid long/short request with fixed_cost = 0, positive
price and positive stop distance, `size_position` computes quantity =
balance*risk_perc*leverage / (ATR*sl_multiplier), notional =
quantity*price and cost = notional/leverage. -/
theorem risk_manager_quantity_formula (r : RiskManager) (price : ℚ)
    (volatility : VolatilitySnapshot) (direction : String)
    (hfc : r._fixed_cost = 0)
    (hdir : direction = "long" ∨ direction = "short")
    (hp : 0 < price)
    (hsd : 0 < volatility.atr * dictGet r._config "atr_multiplier_sl" (5/2))
    (hb : 0 ≤ r._balance) (hrp : 0 ≤ r._risk_perc) (hl : 0 ≤ r._leverage) :
    (r.size_position price volatility direction).quantity
      = (r._balance * r._risk_perc * (r._leverage : ℚ))
        / (volatility.atr * dictGet r._config "atr_multiplier_sl" (5/2)) ∧
    (r.size_position price volatility direction).notional
      = (r.size_position price volatility direction).quantity * price ∧
    (r.size_position price volatility direction).cost
      = (r.size_position price volatility direction).notional / (r._leverage : ℚ) := by
  have hc1 : ¬(direction ≠ "long" ∧ direction ≠ "short") := by
    rcases hdir with rfl | rfl <;> simp
  have hlq : (0 : ℚ) ≤ (r._leverage : ℚ) := by exact_mod_cast hl
  have hq0 : 0 ≤ r._balance * r._risk_perc * (r._leverage : ℚ)
      / (volatility.atr * dictGet r._config "atr_multiplier_sl" (5/2)) :=
    div_nonneg (mul_nonneg (mul_nonneg hb hrp) hlq) hsd.le
  have hn0 : 0 ≤ r._balance * r._risk_perc * (r._leverage : ℚ)
      / (volatility.atr * dictGet r._config "atr_multiplier_sl" (5/2)) * price :=
    mul_nonneg hq0 hp.le
  simp only [RiskManager.size_position, RiskManager._position_risk]
  rw [if_neg hc1, if_neg (not_le.mpr hp), if_neg (not_le.mpr hsd),
    if_neg (show ¬r._fixed_cost > 0 by rw [hfc]; exact lt_irrefl 0)]
  dsimp only
  rw [max_eq_left hq0, max_eq_left hn0]
  by_cases hqn : r._balance * r._risk_perc * (r._leverage : ℚ)
      / (volatility.atr * dictGet r._config "atr_multiplier_sl" (5/2)) = 0 ∨
      r._balance * r._risk_perc * (r._leverage : ℚ)
      / (volatility.atr * dictGet r._config "atr_multiplier_sl" (5/2)) * price = 0
  · have hq : r._balance * r._risk_perc * (r._leverage : ℚ)
        / (volatility.atr * dictGet r._config "atr_multiplier_sl" (5/2)) = 0 := by
      rcases hqn with h | h
      · exact h
      · rcases mul_eq_zero.mp h with h | h
        · exact h
        · exact absurd h hp.ne'
    rw [if_pos hqn]
    refine ⟨?_, ?_, ?_⟩
    · simp only [RiskManager._empty_sizing]
      exact hq.symm
    · simp only [RiskManager._empty_sizing]
      exact (zero_mul price).symm
    · simp only [RiskManager._empty_sizing]
      exact (zero_div _).symm
  · rw [if_neg hqn]
    dsimp only
    refine ⟨rfl, rfl, ?_⟩
    by_cases hlz : (r._leverage : ℚ) ≠ 0
    · rw [if_pos hlz, max_eq_left (div_nonneg hn0 hlq)]
    · rw [if_neg hlz, not_ne_iff.mp hlz, div_zero, max_self]

/-- Witness for `risk_manager_quantity_formula` with the spec's numbers:
ATR 100, sl_multiplier 2.5, balance 10000, risk 1 percent, leverage 5 give
quantity 2, notional 2*price and cost notional/5 at price 300. -/
theorem risk_manager_quantity_formula_witness :
    ((RiskManager.init 10000 5 (1/100) [] 0)._fixed_cost = 0 ∧
      (0 : ℚ) < 300 ∧
      (0 : ℚ) < (⟨100, 0, 0, false, "normal"⟩ : VolatilitySnapshot).atr
        * dictGet (RiskManager.init 10000 5 (1/100) [] 0)._config "atr_multiplier_sl" (5/2)) ∧
    ((RiskManager.init 10000 5 (1/100) [] 0).size_position 300
      ⟨100, 0, 0, false, "normal"⟩ "long").quantity = 2 ∧
    ((RiskManager.init 10000 5 (1/100) [] 0).size_position 300
      ⟨100, 0, 0, false, "normal"⟩ "long").notional = 600 ∧
    ((RiskManager.init 10000 5 (1/100) [] 0).size_position 300
      ⟨100, 0, 0, false, "normal"⟩ "long").cost = 120 := by
  have h := risk_manager_quantity_formula (RiskManager.init 10000 5 (1/100) [] 0) 300
    ⟨100, 0, 0, false, "normal"⟩ "long"
    (by norm_num [RiskManager.init])
    (Or.inl rfl)
    (by norm_num)
    (by norm_num [RiskManager.init, dictGet, List.find?])
    (by norm_num [RiskManager.init])
    (by norm_num [RiskManager.init])
    (by norm_num [RiskManager.init])
  refine ⟨⟨by norm_num [RiskManager.init], by norm_num,
    by norm_num [RiskManager.init, dictGet, List.find?]⟩, ?_, ?_, ?_⟩
  · rw [h.1]
    norm_num [RiskManager.init, dictGet, List.find?]
  · rw [h.2.1, h.1]
    norm_num [RiskManager.init, dictGet, List.find?]
  · rw [h.2.2, h.2.1, h.1]
    norm_num [RiskManager.init, dictGet, List.find?]

/-- Claim C6 as frozen is false: a trade update carrying a negative
quantity (buy of -1, then sell of 2) drives the imbalance to -3, outside
[-1, 1]. -/
theorem order_flow_c6_counterexample :
    (OrderFlowAnalyzer.run 120
      [FlowUpdate.trade 100 (-1) false, FlowUpdate.trade 100 2 true]).snapshot.imbalance < -1 := by
  norm_num [OrderFlowAnalyzer.run, OrderFlowAnalyzer.init, OrderFlowAnalyzer.apply,
    OrderFlowAnalyzer.update_from_trade, dequeAppend, OrderFlowAnalyzer.snapshot]

/-- Claim C6 (amended: quantities are required to be nonnegative): after any
sequence of trade and liquidation updates with nonnegative quantities,
`snapshot` reports imbalance = (buy - sell)/(buy + sell), lying in [-1, 1]
and equal to 0 when no trades were recorded, and liquidation_pressure =
(short_liq - long_liq)/(long_liq + short_liq), lying in [-1, 1] and equal
to 0 when the liquidation total is 0. -/
theorem order_flow_run_spec (maxlen : ℕ) (us : List FlowUpdate)
    (h : ∀ u ∈ us, 0 ≤ u.quantity) :
    ((OrderFlowAnalyzer.run maxlen us).snapshot.imbalance
      = ((OrderFlowAnalyzer.run maxlen us).snapshot.buy_volume
          - (OrderFlowAnalyzer.run maxlen us).snapshot.sell_volume)
        / ((OrderFlowAnalyzer.run maxlen us).snapshot.buy_volume
          + (OrderFlowAnalyzer.run maxlen us).snapshot.sell_volume)) ∧
    (-1 ≤ (OrderFlowAnalyzer.run maxlen us).snapshot.imbalance
      ∧ (OrderFlowAnalyzer.run maxlen us).snapshot.imbalance ≤ 1) ∧
    ((∀ u ∈ us, u.isTrade = false) → (OrderFlowAnalyzer.run maxlen us).snapshot.imbalance = 0) ∧
    ((OrderFlowAnalyzer.run maxlen us).snapshot.liquidation_pressure
      = ((OrderFlowAnalyzer.run maxlen us).short_liq - (OrderFlowAnalyzer.run maxlen us).long_liq)
        / ((OrderFlowAnalyzer.run maxlen us).long_liq + (OrderFlowAnalyzer.run maxlen us).short_liq)) ∧
    (-1 ≤ (OrderFlowAnalyzer.run maxlen us).snapshot.liquidation_pressure
      ∧ (OrderFlowAnalyzer.run maxlen us).snapshot.liquidation_pressure ≤ 1) ∧
    ((OrderFlowAnalyzer.run maxlen us).long_liq + (OrderFlowAnalyzer.run maxlen us).short_liq = 0
      → (OrderFlowAnalyzer.run maxlen us).snapshot.liquidation_pressure = 0) := by
  obtain ⟨htr, hlq⟩ := run_nonneg maxlen us h
  have base := snapshot_spec _ htr hlq
  exact ⟨base.1, base.2.1,
    fun hnt => base.2.2.1 (run_trades_nil maxlen us hnt),
    base.2.2.2.1, base.2.2.2.2.1, base.2.2.2.2.2⟩

/-- Witness for `order_flow_run_spec` on a concrete update sequence. -/
theorem order_flow_run_spec_witness :
    (∀ u ∈ [FlowUpdate.trade 100 2 true, FlowUpdate.liquidation 3 "SELL"], 0 ≤ u.quantity) ∧
    (-1 ≤ (OrderFlowAnalyzer.run 120
        [FlowUpdate.trade 100 2 true, FlowUpdate.liquidation 3 "SELL"]).snapshot.imbalance
      ∧ (OrderFlowAnalyzer.run 120
        [FlowUpdate.trade 100 2 true, FlowUpdate.liquidation 3 "SELL"]).snapshot.imbalance ≤ 1) := by
  have hq : ∀ u ∈ [FlowUpdate.trade 100 2 true, FlowUpdate.liquidation 3 "SELL"],
      0 ≤ u.quantity := by
    intro u hu
    rcases List.mem_cons.mp hu with rfl | hu
    · norm_num [FlowUpdate.quantity]
    · rcases List.mem_cons.mp hu with rfl | hu
      · norm_num [FlowUpdate.quantity]
      · simp at hu
  exact ⟨hq, (order_flow_run_spec 120 _ hq).2.1⟩

/-- Claim C7: `place_order` rounds the quantity down to the nearest
step-size multiple (0.123456 with step 0.01 becomes 0.12), rejects the
order before transmission when the rounded quantity is nonpositive or
below the instrument minimum, and any transmitted quantity is positive,
step-rounded and at or above the minimum. -/
theorem binance_order_normalization :
    (BinanceFuturesClient._round_to_step (123456/1000000) (some (1/100)) = 12/100) ∧
    (∀ q step : ℚ, 0 < step → 0 ≤ q →
      (∃ n : ℤ, BinanceFuturesClient._round_to_step q (some step) = (n : ℚ) * step) ∧
      BinanceFuturesClient._round_to_step q (some step) ≤ q ∧
      q < BinanceFuturesClient._round_to_step q (some step) + step) ∧
    (∀ (q : ℚ) (f : LotFilter), q ≠ 0 →
      ((BinanceFuturesClient._round_to_step q f.stepSize ≤ 0
          ∨ ∃ m, f.minQty = some m ∧ BinanceFuturesClient._round_to_step q f.stepSize < m) →
        ∃ msg, BinanceFuturesClient.place_order_quantity q (some f) = Except.error msg) ∧
      (∀ t, BinanceFuturesClient.place_order_quantity q (some f) = Except.ok (some t) →
        0 < t ∧ t = BinanceFuturesClient._round_to_step q f.stepSize ∧
        ∀ mq, f.minQty = some mq → mq ≤ t)) := by
  refine ⟨round_to_step_example, ?_, ?_⟩
  · intro q step hstep hq
    have hne : step ≠ 0 := hstep.ne'
    have hnn : 0 ≤ q / step := div_nonneg hq hstep.le
    have hr : BinanceFuturesClient._round_to_step q (some step) = (⌊q / step⌋ : ℚ) * step := by
      unfold BinanceFuturesClient._round_to_step truncDiv
      dsimp only
      rw [if_neg (not_le.mpr hstep), if_pos hnn]
    refine ⟨⟨⌊q / step⌋, hr⟩, ?_, ?_⟩
    · rw [hr]
      calc (⌊q / step⌋ : ℚ) * step ≤ (q / step) * step :=
            mul_le_mul_of_nonneg_right (Int.floor_le _) hstep.le
        _ = q := div_mul_cancel₀ q hne
    · rw [hr]
      have h1 : q / step < (⌊q / step⌋ : ℚ) + 1 := Int.lt_floor_add_one _
      have h2 : (q / step) * step < ((⌊q / step⌋ : ℚ) + 1) * step :=
        mul_lt_mul_of_pos_right h1 hstep
      rw [div_mul_cancel₀ q hne] at h2
      nlinarith [h2]
  · intro q f hq
    constructor
    · intro hbad
      unfold BinanceFuturesClient.place_order_quantity
      rw [if_neg hq]
      dsimp only
      unfold BinanceFuturesClient._apply_quantity_filter
      dsimp only
      rcases hbad with hle | ⟨m, hm, hlt⟩
      · rw [if_pos hle]
        exact ⟨_, rfl⟩
      · by_cases hle : BinanceFuturesClient._round_to_step q f.stepSize ≤ 0
        · rw [if_pos hle]
          exact ⟨_, rfl⟩
        · rw [if_neg hle, hm]
          dsimp only
          rw [if_pos hlt]
          exact ⟨_, rfl⟩
    · intro t ht
      unfold BinanceFuturesClient.place_order_quantity at ht
      rw [if_neg hq] at ht
      dsimp only at ht
      unfold BinanceFuturesClient._apply_quantity_filter at ht
      dsimp only at ht
      by_cases hle : BinanceFuturesClient._round_to_step q f.stepSize ≤ 0
      · rw [if_pos hle] at ht
        simp [Except.map] at ht
      · rw [if_neg hle] at ht
        cases hmq : f.minQty with
        | none =>
            rw [hmq] at ht
            dsimp only at ht
            simp only [Except.map, Except.ok.injEq, Option.some.injEq] at ht
            refine ⟨?_, ?_, ?_⟩
            · rw [← ht]
              exact lt_of_not_le hle
            · exact ht.symm
            · intro mq hmq2
              exact Option.noConfusion hmq2
        | some m =>
            rw [hmq] at ht
            dsimp only at ht
            by_cases hlt : BinanceFuturesClient._round_to_step q f.stepSize < m
            · rw [if_pos hlt] at ht
              simp [Except.map] at ht
            · rw [if_neg hlt] at ht
              simp only [Except.map, Except.ok.injEq, Option.some.injEq] at ht
              refine ⟨?_, ?_, ?_⟩
              · rw [← ht]
                exact lt_of_not_le hle
              · exact ht.symm
              · intro mq hmq2
                have hm2 : mq = m := (Option.some.inj hmq2).symm
                rw [hm2, ← ht]
                exact le_of_not_lt hlt

/-- Witness for `binance_order_normalization`: a quantity below the
instrument minimum is rejected. -/
theorem binance_order_normalization_witness :
    ((0:ℚ) < 1/100 ∧ (0:ℚ) ≤ 123456/1000000 ∧
      BinanceFuturesClient._round_to_step (123456/1000000) (some (1/100)) ≤ 123456/1000000) ∧
    ((1:ℚ)/20 ≠ 0 ∧
      ∃ msg, BinanceFuturesClient.place_order_quantity (1/20)
        (some (LotFilter.mk (some (1/100)) (some (1/10)))) = Except.error msg) := by
  have h2 := (binance_order_normalization).2.1 (123456/1000000) (1/100)
    (by norm_num) (by norm_num)
  have h3 := ((binance_order_normalization).2.2 (1/20)
    (LotFilter.mk (some (1/100)) (some (1/10))) (by norm_num)).1
  have hr : BinanceFuturesClient._round_to_step (1/20) (some (1/100)) = 1/20 := by
    unfold BinanceFuturesClient._round_to_step truncDiv
    dsimp only
    rw [if_neg (by norm_num), if_pos (by norm_num)]
    have hd : ((1:ℚ)/20) / (1/100) = 5 := by norm_num
    rw [hd]
    have hf : ⌊(5:ℚ)⌋ = 5 := by
      rw [Int.floor_eq_iff]
      constructor <;> norm_num
    rw [hf]
    norm_num
  have hlt : BinanceFuturesClient._round_to_step (1/20)
      (LotFilter.mk (some (1/100)) (some (1/10))).stepSize < 1/10 := by
    dsimp only
    rw [hr]
    norm_num
  exact ⟨⟨by norm_num, by norm_num, h2.2.1⟩,
    ⟨by norm_num, h3 (Or.inr ⟨1/10, rfl, hlt⟩)⟩⟩

/-- Claim C9: for a symbol with no registered position,
`PortfolioManager.remove_position`, `update_stop` and `update_take_profit`
return normally and leave the manager unchanged. -/
theorem portfolio_missing_symbol_noop (m : PortfolioManager) (symbol : String) (v1 v2 : ℚ)
    (h : m.get_position symbol = none) :
    m.remove_position symbol = m ∧ m.update_stop symbol v1 = m ∧
      m.update_take_profit symbol v2 = m := by
  have hfind : m._state.positions.find? (fun kv => kv.1 == symbol) = none := by
    have := h
    unfold PortfolioManager.get_position at this
    exact Option.map_eq_none'.mp this
  have hany : m._state.positions.any (fun kv => kv.1 == symbol) = false := by
    rw [List.any_eq_false]
    intro kv hkv
    simpa using List.find?_eq_none.mp hfind kv hkv
  refine ⟨?_, ?_, ?_⟩
  · simp [PortfolioManager.remove_position, hany]
  · simp [PortfolioManager.update_stop, h]
  · simp [PortfolioManager.update_take_profit, h]

/-- Witness for `portfolio_missing_symbol_noop` on an empty portfolio. -/
theorem portfolio_missing_symbol_noop_witness :
    ((PortfolioManager.init 1).get_position "BTCUSDT" = none) ∧
    ((PortfolioManager.init 1).remove_position "BTCUSDT" = PortfolioManager.init 1) ∧
    ((PortfolioManager.init 1).update_stop "BTCUSDT" 95 = PortfolioManager.init 1) ∧
    ((PortfolioManager.init 1).update_take_profit "BTCUSDT" 130 = PortfolioManager.init 1) := by
  have h := portfolio_missing_symbol_noop (PortfolioManager.init 1) "BTCUSDT" 95 130 rfl
  exact ⟨rfl, h.1, h.2.1, h.2.2⟩

/-- Claim C10: `add_position` unconditionally stores the position keyed by
its symbol (overwriting any previous one) and ignores `can_open` and
`_max_positions`; a portfolio already at max_positions = 1 grows to 2
positions when a second symbol is added, the count bound is kept whenever
the add is gated by `can_open`, and key-uniqueness (at most one position
per symbol) is preserved by every add. -/
theorem add_position_bypasses_can_open (m : PortfolioManager) (pos : Position) :
    ((m.add_position pos).get_position pos.symbol = some pos) ∧
    ((m.add_position pos)._max_positions = m._max_positions) ∧
    (m.can_open pos.symbol = true →
      (m.add_position pos)._state.positions.length ≤ m._max_positions) ∧
    (keysNodup m → keysNodup (m.add_position pos)) ∧
    (keysNodup m → ∀ s, symbolCount (m.add_position pos) s ≤ 1) ∧
    (((PortfolioManager.init 1).add_position
        ⟨"BTCUSDT", "long", 100, 1, 90, 120, false, 100, 20⟩).add_position
        ⟨"ETHUSDT", "short", 50, 2, 55, 40, false, 100, 20⟩)._state.positions.length
      = (PortfolioManager.init 1)._max_positions + 1 := by
  refine ⟨?_, rfl, can_open_add_le m pos, ?_, ?_, rfl⟩
  · unfold PortfolioManager.get_position PortfolioManager.add_position
    dsimp only
    rw [find_dictInsert]
    rfl
  · intro h
    exact nodup_dictInsert _ _ _ h
  · intro h s
    exact length_filter_key_le_one _ _ (nodup_dictInsert _ _ _ h)

/-- Witness for `add_position_bypasses_can_open` on a two-slot manager. -/
theorem add_position_bypasses_can_open_witness :
    ((PortfolioManager.init 2).add_position
        ⟨"BTCUSDT", "long", 100, 1, 90, 120, false, 100, 20⟩).can_open "ETHUSDT" = true ∧
    keysNodup ((PortfolioManager.init 2).add_position
        ⟨"BTCUSDT", "long", 100, 1, 90, 120, false, 100, 20⟩) ∧
    ((((PortfolioManager.init 2).add_position
        ⟨"BTCUSDT", "long", 100, 1, 90, 120, false, 100, 20⟩).add_position
        ⟨"ETHUSDT", "short", 50, 2, 55, 40, false, 100, 20⟩)._state.positions.length
      ≤ ((PortfolioManager.init 2).add_position
        ⟨"BTCUSDT", "long", 100, 1, 90, 120, false, 100, 20⟩)._max_positions) ∧
    keysNodup (((PortfolioManager.init 2).add_position
        ⟨"BTCUSDT", "long", 100, 1, 90, 120, false, 100, 20⟩).add_position
        ⟨"ETHUSDT", "short", 50, 2, 55, 40, false, 100, 20⟩) ∧
    symbolCount (((PortfolioManager.init 2).add_position
        ⟨"BTCUSDT", "long", 100, 1, 90, 120, false, 100, 20⟩).add_position
        ⟨"ETHUSDT", "short", 50, 2, 55, 40, false, 100, 20⟩) "BTCUSDT" ≤ 1 := by
  have hco : ((PortfolioManager.init 2).add_position
      ⟨"BTCUSDT", "long", 100, 1, 90, 120, false, 100, 20⟩).can_open "ETHUSDT" = true := by
    rfl
  have hnd : keysNodup ((PortfolioManager.init 2).add_position
      ⟨"BTCUSDT", "long", 100, 1, 90, 120, false, 100, 20⟩) := by
    simp [keysNodup, PortfolioManager.add_position, PortfolioManager.init, dictInsert]
  have h := add_position_bypasses_can_open
    ((PortfolioManager.init 2).add_position
      ⟨"BTCUSDT", "long", 100, 1, 90, 120, false, 100, 20⟩)
    ⟨"ETHUSDT", "short", 50, 2, 55, 40, false, 100, 20⟩
  exact ⟨hco, hnd, h.2.2.1 hco, h.2.2.2.1 hnd, h.2.2.2.2.1 hnd "BTCUSDT"⟩
